import Mathlib

/-!
Shallow embedding of the Open-Fiesta offline caching and synchronization
engine (custom service worker: cache-first, network-first-with-timeout and
stale-while-revalidate strategies over named cache tables, plus the offline
sync queue surface), together with theorems settling the specification's
claims about it.

Conventions of the embedding:
* A `Response` carries its HTTP-success flag (`ok`), an opaque body, and the
  optional `sw-cached-at` stamp (`cachedAt`, in milliseconds) that
  `addTimestamp` sets; absence of the header is `none`.
* A cache table is an association list in insertion order (`cache.keys()`
  order); `cache.put` replaces an existing entry for the key in place and
  appends a new key at the end.
* JavaScript truthiness of `config?.maxEntries` / `config?.maxAgeSeconds`
  is modelled by `Nat` with `0` playing the role of "unset or 0", exactly
  as both are falsy in the source.
* A network call is a parameter: `Except NetworkError Response` for plain
  `fetch`, and for the network-first race a `NetBehavior` that also carries
  the instant (ms) at which the fetch settles, raced against the timeout.
* Asynchrony is resolved into the final cache state an operation leaves
  behind: a background refresh that the source starts (with a continuation
  that writes the cache) is part of the returned state, while a promise the
  source drops without attaching any cache-writing continuation (the loser
  of the network-first race) contributes nothing.
-/

namespace OpenFiesta

/-- A network error: the artificial timeout rejection from the
network-first race, or a plain `fetch` failure. -/
inductive NetworkError where
  | timeout : NetworkError
  | failure : Nat → NetworkError
deriving DecidableEq, Repr

/-- A response as the service worker sees it: HTTP-success flag `ok`,
opaque body, and the optional `sw-cached-at` header in ms
(none = header absent). -/
structure Response where
  ok : Bool
  body : Nat
  cachedAt : Option Nat
deriving DecidableEq, Repr

/-- Per-table configuration, one line of `CACHE_CONFIGS`.  `0` models a
falsy (`undefined` or `0`) field, as in the source's
`if (!config?.maxEntries) return` checks. -/
structure CacheConfig where
  maxEntries : Nat
  maxAgeSeconds : Nat
deriving DecidableEq, Repr

/-- A cache table: entries in insertion (`cache.keys()`) order. -/
abbrev CacheState := List (String × Response)

/-- `cache.match(request)`: the entry stored under the key, if any. -/
def matchEntry (st : CacheState) (key : String) : Option Response :=
  (st.find? (fun e => e.1 = key)).map (·.2)

/-- `cache.put(request, response)`: replace an existing entry for the key
in place, else append at the end. -/
def putEntry : CacheState → String → Response → CacheState
  | [], key, resp => [(key, resp)]
  | e :: rest, key, resp =>
    if e.1 = key then (key, resp) :: rest else e :: putEntry rest key resp

/-- `addTimestamp`: stamp the response with the `sw-cached-at` header set
to the current time (ms), keeping status and body. -/
def addTimestamp (resp : Response) (now : Nat) : Response :=
  { resp with cachedAt := some now }

/-- `isExpired`: a response with no `sw-cached-at` header is never expired;
a table with falsy `maxAgeSeconds` never expires entries; otherwise expired
iff `now - cachedTime > maxAgeSeconds * 1000` (ms). -/
def isExpired (resp : Response) (config : CacheConfig) (now : Nat) : Bool :=
  match resp.cachedAt with
  | none => false
  | some cachedTime =>
    if config.maxAgeSeconds = 0 then false
    else decide ((now : Int) - cachedTime > (config.maxAgeSeconds : Int) * 1000)

/-- `enforceMaxEntries`: nothing to do for a falsy `maxEntries` or when the
count is within bounds; otherwise delete the first
`keys.length - maxEntries` entries (oldest first, insertion order). -/
def enforceMaxEntries (st : CacheState) (config : CacheConfig) : CacheState :=
  if config.maxEntries = 0 then st
  else if st.length ≤ config.maxEntries then st
  else st.drop (st.length - config.maxEntries)

/-- The write path shared by all strategies on a successful `ok` network
response: stamp, `cache.put`, then `enforceMaxEntries`. -/
def cacheWrite (st : CacheState) (config : CacheConfig) (key : String)
    (resp : Response) (now : Nat) : CacheState :=
  enforceMaxEntries (putEntry st key (addTimestamp resp now)) config

/-- The network branch of `cacheFirstStrategy` (cache miss or expired
entry): fetch; on `ok` stamp + put + evict and return the network response;
a non-`ok` response is returned uncached; a fetch failure falls back to the
(stale) cached entry when present and is rethrown otherwise. -/
def cacheFirstNetwork (st : CacheState) (key : String) (config : CacheConfig)
    (net : Except NetworkError Response) (now : Nat) :
    Except NetworkError Response × CacheState :=
  match net with
  | .ok resp =>
    if resp.ok then (.ok resp, cacheWrite st config key resp now)
    else (.ok resp, st)
  | .error e =>
    match matchEntry st key with
    | some stale => (.ok stale, st)
    | none => (.error e, st)

/-- `cacheFirstStrategy`: a present, non-expired entry is returned at once
with no network involvement; otherwise the network branch runs. -/
def cacheFirstStrategy (st : CacheState) (key : String) (config : CacheConfig)
    (net : Except NetworkError Response) (now : Nat) :
    Except NetworkError Response × CacheState :=
  match matchEntry st key with
  | some cached =>
    if isExpired cached config now then cacheFirstNetwork st key config net now
    else (.ok cached, st)
  | none => cacheFirstNetwork st key config net now

instance {ε α : Type} [DecidableEq ε] [DecidableEq α] :
    DecidableEq (Except ε α) := fun x y =>
  match x, y with
  | .ok a, .ok b =>
    if h : a = b then .isTrue (by rw [h]) else .isFalse (by simp [h])
  | .ok _, .error _ => .isFalse (by simp)
  | .error _, .ok _ => .isFalse (by simp)
  | .error e, .error f =>
    if h : e = f then .isTrue (by rw [h]) else .isFalse (by simp [h])

/-- The behavior of one `fetch` for the network-first race: the instant
(ms after the strategy starts) at which the promise settles, and how. -/
structure NetBehavior where
  time : Nat
  result : Except NetworkError Response
deriving DecidableEq, Repr

/-- The fallback branch of `networkFirstStrategy` (network failed or timed
out): return the cached entry when present — with no expiry check — and
rethrow the error otherwise. -/
def networkFirstFallback (st : CacheState) (key : String) (e : NetworkError) :
    Except NetworkError Response × CacheState :=
  match matchEntry st key with
  | some cached => (.ok cached, st)
  | none => (.error e, st)

/-- `networkFirstStrategy`: `Promise.race` of the fetch against a timeout
(source default 3000 ms).  The fetch wins iff it settles strictly before
the timeout fires.  A winning `ok` response is stamped, cached, evicted
and returned; a winning non-`ok` response is returned uncached; a losing
or failing fetch falls back to the cache.  The source attaches no
cache-writing continuation to the losing fetch promise, so a late network
response has no effect on the final cache state. -/
def networkFirstStrategy (st : CacheState) (key : String)
    (config : CacheConfig) (net : NetBehavior) (now : Nat)
    (timeout : Nat := 3000) : Except NetworkError Response × CacheState :=
  if net.time < timeout then
    match net.result with
    | .ok resp =>
      if resp.ok then (.ok resp, cacheWrite st config key resp now)
      else (.ok resp, st)
    | .error e => networkFirstFallback st key e
  else networkFirstFallback st key .timeout

/-- The background `networkPromise` of `staleWhileRevalidateStrategy`: the
fetch's `.then` writes an `ok` response into the table (stamp + put +
evict) and passes the response through; the attached `.catch` logs the
failure and resolves with `undefined` (modelled as `none`), never
rejecting. -/
def swrNetworkPromise (st : CacheState) (key : String) (config : CacheConfig)
    (net : Except NetworkError Response) (now : Nat) :
    Option Response × CacheState :=
  match net with
  | .ok resp =>
    if resp.ok then (some resp, cacheWrite st config key resp now)
    else (some resp, st)
  | .error _ => (none, st)

/-- `staleWhileRevalidateStrategy`: a present, non-expired entry is
returned immediately while the background promise refreshes the table;
otherwise the caller awaits the background promise itself — whose `.catch`
has already swallowed any fetch failure, so the await resolves (possibly
to `undefined` = `.ok none`) rather than rejecting. -/
def staleWhileRevalidateStrategy (st : CacheState) (key : String)
    (config : CacheConfig) (net : Except NetworkError Response) (now : Nat) :
    Except NetworkError (Option Response) × CacheState :=
  let bg := swrNetworkPromise st key config net now
  match matchEntry st key with
  | some cached =>
    if isExpired cached config now then (.ok bg.1, bg.2)
    else (.ok (some cached), bg.2)
  | none => (.ok bg.1, bg.2)

/-- `cleanupCaches` restricted to one table: delete every entry whose
response `isExpired`, keeping the rest in order. -/
def cleanupTable (st : CacheState) (config : CacheConfig) (now : Nat) :
    CacheState :=
  st.filter (fun e => !isExpired e.2 config now)

/-- `cleanupCaches`: sweep every existing cache; a cache name with no
entry in `CACHE_CONFIGS` is skipped (`continue`), a configured one has its
expired entries physically deleted. -/
def cleanupCaches (caches : List (String × CacheState))
    (configs : String → Option CacheConfig) (now : Nat) :
    List (String × CacheState) :=
  caches.map (fun c =>
    match configs c.1 with
    | some config => (c.1, cleanupTable c.2 config now)
    | none => c)

end OpenFiesta

namespace OpenFiesta

/-! ## Offline sync queue and conversation store

The implementations behind `@/lib/offline/storage` are not part of the
provided sources — only their test file and the specification describe
them — so the definitions below are modelled from the spec. -/

/-- QueueItem status, spec §3: pending, syncing, completed, failed. -/
inductive QueueStatus where
  | pending : QueueStatus
  | syncing : QueueStatus
  | completed : QueueStatus
  | failed : QueueStatus
deriving DecidableEq, Repr

/-- Modelled from the spec: a durable record of one deferred action
(`QueueItem`, spec §3); the payload is opaque and omitted. -/
structure QueueItem where
  id : Nat
  retryCount : Nat
  maxRetries : Nat
  status : QueueStatus
deriving DecidableEq, Repr

/-- Modelled from the spec: `enqueue(item)` persists the action with
`status = pending` and `retryCount = 0` (spec §4.4), at the queue's end
(FIFO). -/
def enqueue (q : List QueueItem) (id maxRetries : Nat) : List QueueItem :=
  q ++ [⟨id, 0, maxRetries, .pending⟩]

/-- Modelled from the spec: the failure outcome of one sync attempt
(spec §4.4 state machine): `syncing → pending` incrementing `retryCount`
while the bound allows, and `syncing → failed` when `retryCount` reaches
`maxRetries`; the bounded count itself is never exceeded. -/
def processFailure (it : QueueItem) : QueueItem :=
  if it.retryCount + 1 ≤ it.maxRetries then
    { it with
      retryCount := it.retryCount + 1,
      status :=
        if it.retryCount + 1 = it.maxRetries then .failed else .pending }
  else { it with status := .failed }

/-- Modelled from the spec: one step of `drain()` (spec §4.4): take the
first pending item (FIFO), attempt its network execution; on success the
item is removed from the queue (completed, deleted), on failure it is
rescheduled or terminally failed via `processFailure`.  Non-pending items
(in particular `failed` ones) are left untouched. -/
def drainStep : List QueueItem → Bool → List QueueItem
  | [], _ => []
  | it :: rest, success =>
    if it.status = .pending then
      if success then rest else processFailure it :: rest
    else it :: drainStep rest success

/-- Modelled from the spec: a `drain()` run as a sequence of per-item
network outcomes (`true` = the attempt succeeded). -/
def drainRun (q : List QueueItem) : List Bool → List QueueItem
  | [] => q
  | o :: os => drainRun (drainStep q o) os

/-- Every item of the queue respects the retry bound. -/
def RetryBound (q : List QueueItem) : Prop :=
  ∀ it ∈ q, it.retryCount ≤ it.maxRetries

instance (q : List QueueItem) : Decidable (RetryBound q) := by
  unfold RetryBound; infer_instance

/-- Persistence-layer error taxonomy (spec §7). -/
inductive StoreError where
  | quotaExceeded : StoreError
  | corruption : StoreError
  | connectionClosed : StoreError
deriving DecidableEq, Repr

/-- Modelled from the spec: a cached conversation snapshot (spec §3);
thread content is opaque. -/
structure CachedConversation where
  id : String
  lastModified : Nat
deriving DecidableEq, Repr

/-- Modelled from the spec: `getConversation(id)` — a store `get` whose
missing-key result is the explicit absent value `null`, surfaced as
`.ok none`, never as an error (spec §4.1, §6; the store itself may fail,
hence the `Except` shape, but a missing id is not a failure). -/
def getConversation (store : List (String × CachedConversation))
    (id : String) : Except StoreError (Option CachedConversation) :=
  .ok ((store.find? (fun e => e.1 = id)).map (·.2))

/-- A cache table never holds two entries with the same key. -/
def NoDupKeys (st : CacheState) : Prop := (st.map Prod.fst).Nodup

instance (st : CacheState) : Decidable (NoDupKeys st) := by
  unfold NoDupKeys; infer_instance

/-! ## Helper lemmas -/

theorem length_enforceMaxEntries (st : CacheState) (config : CacheConfig)
    (h : 0 < config.maxEntries) :
    (enforceMaxEntries st config).length ≤ config.maxEntries := by
  unfold enforceMaxEntries
  split
  · omega
  · split
    · assumption
    · rw [List.length_drop]
      omega

theorem enforceMaxEntries_overflow (st : CacheState) (config : CacheConfig)
    (h : 0 < config.maxEntries) (hover : config.maxEntries < st.length) :
    enforceMaxEntries st config = st.drop (st.length - config.maxEntries) ∧
      (enforceMaxEntries st config).length = config.maxEntries := by
  unfold enforceMaxEntries
  have h0 : ¬ config.maxEntries = 0 := by omega
  have h1 : ¬ st.length ≤ config.maxEntries := by omega
  rw [if_neg h0, if_neg h1]
  exact ⟨rfl, by rw [List.length_drop]; omega⟩

theorem length_cacheWrite (st : CacheState) (config : CacheConfig)
    (key : String) (resp : Response) (now : Nat) (h : 0 < config.maxEntries) :
    (cacheWrite st config key resp now).length ≤ config.maxEntries :=
  length_enforceMaxEntries _ _ h

theorem matchEntry_putEntry_self (st : CacheState) (key : String)
    (resp : Response) : matchEntry (putEntry st key resp) key = some resp := by
  induction st with
  | nil => simp [putEntry, matchEntry]
  | cons e rest ih =>
    by_cases he : e.1 = key
    · simp [putEntry, he, matchEntry]
    · simpa [putEntry, he, matchEntry] using ih

theorem mem_keys_putEntry (st : CacheState) (key : String) (resp : Response)
    (a : String) (h : a ∈ (putEntry st key resp).map Prod.fst) :
    a ∈ st.map Prod.fst ∨ a = key := by
  induction st with
  | nil =>
    simp [putEntry] at h
    simp [h]
  | cons e rest ih =>
    by_cases he : e.1 = key
    · simp [putEntry, he] at h
      rcases h with h | h
      · right; exact h
      · left; simp [List.mem_map]
        right
        simpa [List.mem_map] using h
    · simp [putEntry, he] at h
      rcases h with h | h
      · left; simp [h]
      · rcases ih (by simpa [List.mem_map] using h) with h' | h'
        · left; simp [List.mem_map]
          right
          simpa [List.mem_map] using h'
        · right; exact h'

theorem noDupKeys_putEntry (st : CacheState) (h : NoDupKeys st)
    (key : String) (resp : Response) : NoDupKeys (putEntry st key resp) := by
  induction st with
  | nil => simp [putEntry, NoDupKeys]
  | cons e rest ih =>
    unfold NoDupKeys at h
    simp only [List.map_cons, List.nodup_cons] at h
    by_cases he : e.1 = key
    · unfold NoDupKeys
      simp only [putEntry, he, if_true, List.map_cons, List.nodup_cons]
      exact ⟨by rw [← he]; exact h.1, h.2⟩
    · unfold NoDupKeys
      simp only [putEntry, he, if_false, List.map_cons, List.nodup_cons]
      refine ⟨?_, ih h.2⟩
      intro hmem
      rcases mem_keys_putEntry rest key resp e.1 hmem with h' | h'
      · exact h.1 h'
      · exact he h'

theorem countP_eq_zero_of_not_mem_keys (st : CacheState) (key : String)
    (h : key ∉ st.map Prod.fst) :
    st.countP (fun e => e.1 = key) = 0 := by
  rw [List.countP_eq_zero]
  intro e he
  simp only [decide_eq_true_eq]
  intro hk
  exact h (List.mem_map.mpr ⟨e, he, hk⟩)

theorem countP_putEntry (st : CacheState) (h : NoDupKeys st) (key : String)
    (resp : Response) :
    (putEntry st key resp).countP (fun e => e.1 = key) = 1 := by
  induction st with
  | nil => simp [putEntry, List.countP_cons]
  | cons e rest ih =>
    unfold NoDupKeys at h
    simp only [List.map_cons, List.nodup_cons] at h
    by_cases he : e.1 = key
    · simp only [putEntry, he, if_true]
      rw [List.countP_cons]
      have : rest.countP (fun e => e.1 = key) = 0 :=
        countP_eq_zero_of_not_mem_keys rest key (he ▸ h.1)
      simp [this]
    · simp only [putEntry, he, if_false]
      rw [List.countP_cons]
      have := ih h.2
      simp [he, this]

theorem retryBound_processFailure (it : QueueItem)
    (h : it.retryCount ≤ it.maxRetries) :
    (processFailure it).retryCount ≤ (processFailure it).maxRetries := by
  unfold processFailure
  split
  · simp only
    omega
  · simpa using h

theorem retryBound_drainStep (q : List QueueItem) (h : RetryBound q)
    (b : Bool) : RetryBound (drainStep q b) := by
  induction q with
  | nil => simp [drainStep]; exact h
  | cons it rest ih =>
    have hit : it.retryCount ≤ it.maxRetries := h it (by simp)
    have hrest : RetryBound rest := fun x hx => h x (by simp [hx])
    unfold drainStep
    by_cases hp : it.status = .pending
    · simp only [hp, if_true]
      cases b with
      | true => simpa using hrest
      | false =>
        intro x hx
        rcases List.mem_cons.mp hx with hx | hx
        · rw [hx]; exact retryBound_processFailure it hit
        · exact hrest x hx
    · simp only [hp, if_false]
      intro x hx
      rcases List.mem_cons.mp hx with hx | hx
      · rw [hx]; exact hit
      · exact ih hrest x hx

theorem retryBound_drainRun (q : List QueueItem) (h : RetryBound q)
    (os : List Bool) : RetryBound (drainRun q os) := by
  induction os generalizing q with
  | nil => simpa [drainRun] using h
  | cons o os ih =>
    simp only [drainRun]
    exact ih _ (retryBound_drainStep q h o)

theorem failed_mem_drainStep (q : List QueueItem) (b : Bool) (it : QueueItem)
    (hm : it ∈ q) (hf : it.status = .failed) : it ∈ drainStep q b := by
  induction q with
  | nil => simp at hm
  | cons e rest ih =>
    unfold drainStep
    by_cases hp : e.status = .pending
    · have hne : it ≠ e := by
        intro hcontra
        rw [hcontra, hp] at hf
        exact QueueStatus.noConfusion hf
      have hmem : it ∈ rest := by
        rcases List.mem_cons.mp hm with h | h
        · exact absurd h hne
        · exact h
      simp only [hp, if_true]
      cases b with
      | true => simpa using hmem
      | false => simp [hmem]
    · simp only [hp, if_false]
      rcases List.mem_cons.mp hm with h | h
      · simp [h]
      · simp [ih h]

theorem failed_mem_drainRun (q : List QueueItem) (os : List Bool)
    (it : QueueItem) (hm : it ∈ q) (hf : it.status = .failed) :
    it ∈ drainRun q os := by
  induction os generalizing q with
  | nil => simpa [drainRun] using hm
  | cons o os ih =>
    simp only [drainRun]
    exact ih _ (failed_mem_drainStep q o it hm hf)

/-! ## Claim theorems -/

/-- C3: for every cache table whose `maxEntries` is configured (positive),
the entry count never exceeds `maxEntries` after any sequence of writes;
an overflowing table is trimmed by deleting entries in ascending insertion
order (a prefix of `cache.keys()`) until the count equals `maxEntries`;
and writing keys A, B, C in order into a `{maxEntries := 2}` table with no
max age leaves exactly B and C, A evicted. -/
theorem c3_max_entries_invariant (config : CacheConfig)
    (h : 0 < config.maxEntries) (st : CacheState)
    (hst : st.length ≤ config.maxEntries)
    (writes : List (String × Response × Nat)) :
    (writes.foldl (fun s w => cacheWrite s config w.1 w.2.1 w.2.2) st).length
        ≤ config.maxEntries
    ∧ (∀ st' : CacheState, config.maxEntries < st'.length →
        enforceMaxEntries st' config
            = st'.drop (st'.length - config.maxEntries)
          ∧ (enforceMaxEntries st' config).length = config.maxEntries)
    ∧ cacheWrite (cacheWrite (cacheWrite [] ⟨2, 0⟩ "A" ⟨true, 1, none⟩ 10)
          ⟨2, 0⟩ "B" ⟨true, 2, none⟩ 11) ⟨2, 0⟩ "C" ⟨true, 3, none⟩ 12
        = [("B", ⟨true, 2, some 11⟩), ("C", ⟨true, 3, some 12⟩)] := by
  refine ⟨?_, fun st' h' => enforceMaxEntries_overflow st' config h h', by decide⟩
  induction writes generalizing st with
  | nil => simpa using hst
  | cons w ws ih =>
    simp only [List.foldl_cons]
    exact ih _ (length_cacheWrite st config w.1 w.2.1 w.2.2 h)

/-- C3 witness: the invariant at a concrete table and write sequence. -/
theorem c3_max_entries_invariant_witness :
    (([("x", ⟨true, 9, none⟩)] : CacheState).length ≤ 2) ∧
    (([("a", ⟨true, 1, none⟩, 20), ("b", ⟨true, 2, none⟩, 21),
        ("c", ⟨true, 3, none⟩, 22)] :
        List (String × Response × Nat)).foldl
      (fun s w => cacheWrite s ⟨2, 30⟩ w.1 w.2.1 w.2.2)
      [("x", ⟨true, 9, none⟩)]).length ≤ 2 :=
  ⟨by decide,
    (c3_max_entries_invariant ⟨2, 30⟩ (by decide) [("x", ⟨true, 9, none⟩)]
      (by decide)
      [("a", ⟨true, 1, none⟩, 20), ("b", ⟨true, 2, none⟩, 21),
        ("c", ⟨true, 3, none⟩, 22)]).1⟩

/-- C5: `isExpired` never holds for a table with no (falsy) configured max
age, and for a stamped entry under a configured max age it holds exactly
when `now - cachedAt` exceeds `maxAgeSeconds`, compared in milliseconds. -/
theorem c5_is_expired_exact (config : CacheConfig) (now : Nat)
    (resp : Response) :
    (config.maxAgeSeconds = 0 → isExpired resp config now = false)
    ∧ (∀ t, resp.cachedAt = some t → 0 < config.maxAgeSeconds →
        (isExpired resp config now = true ↔
          (now : Int) - t > (config.maxAgeSeconds : Int) * 1000)) := by
  constructor
  · intro h0
    unfold isExpired
    cases resp.cachedAt <;> simp [h0]
  · intro t ht hpos
    unfold isExpired
    rw [ht]
    have : ¬ config.maxAgeSeconds = 0 := by omega
    simp [this]

/-- C5 witness: an entry cached at 0 ms in a 1-second table is expired at
1001 ms, and any entry of a no-max-age table is not expired. -/
theorem c5_is_expired_exact_witness :
    isExpired ⟨true, 0, some 0⟩ ⟨10, 1⟩ 1001 = true
    ∧ isExpired ⟨true, 0, some 0⟩ ⟨10, 0⟩ 1001 = false :=
  ⟨((c5_is_expired_exact ⟨10, 1⟩ 1001 ⟨true, 0, some 0⟩).2 0 rfl
      (by decide)).mpr (by decide),
    (c5_is_expired_exact ⟨10, 0⟩ 1001 ⟨true, 0, some 0⟩).1 rfl⟩

/-- C8: cache writes are idempotent per key — a write into a table with no
duplicate keys preserves that invariant, leaves exactly one entry for the
written key, and writing the same key twice leaves the second write's
value and timestamp as the entry for that key. -/
theorem c8_write_idempotent (st : CacheState) (h : NoDupKeys st)
    (key : String) (r1 r2 : Response) (t1 t2 : Nat) :
    NoDupKeys (putEntry st key (addTimestamp r1 t1))
    ∧ (putEntry st key (addTimestamp r1 t1)).countP (fun e => e.1 = key) = 1
    ∧ matchEntry (putEntry (putEntry st key (addTimestamp r1 t1)) key
        (addTimestamp r2 t2)) key = some (addTimestamp r2 t2) :=
  ⟨noDupKeys_putEntry st h key _,
    countP_putEntry st h key _,
    matchEntry_putEntry_self _ key _⟩

/-- C8 witness: double write at a concrete one-entry table. -/
theorem c8_write_idempotent_witness :
    NoDupKeys [("k", ⟨true, 1, some 5⟩)]
    ∧ matchEntry (putEntry (putEntry [("k", ⟨true, 1, some 5⟩)] "k"
        (addTimestamp ⟨true, 2, none⟩ 6)) "k" (addTimestamp ⟨true, 3, none⟩ 7))
        "k" = some ⟨true, 3, some 7⟩ :=
  ⟨by decide,
    (c8_write_idempotent [("k", ⟨true, 1, some 5⟩)] (by decide) "k"
      ⟨true, 2, none⟩ ⟨true, 3, none⟩ 6 7).2.2⟩

/-- C4: the cache-first strategy returns a present, non-expired entry with
no network involvement and no state change; with no usable entry, a
successful `ok` network response is stamped with its capture time, written
into the table, overflow eviction runs, and the response is returned; on a
network failure a stale cached entry is returned if present, and the
failure is propagated otherwise. -/
theorem c4_cache_first (st : CacheState) (key : String)
    (config : CacheConfig) (net : Except NetworkError Response) (now : Nat) :
    (∀ c, matchEntry st key = some c → isExpired c config now = false →
        cacheFirstStrategy st key config net now = (.ok c, st))
    ∧ ((∀ c, matchEntry st key = some c → isExpired c config now = true) →
        ∀ resp, net = .ok resp → resp.ok = true →
          cacheFirstStrategy st key config net now
            = (.ok resp, cacheWrite st config key resp now))
    ∧ ((∀ c, matchEntry st key = some c → isExpired c config now = true) →
        ∀ e c, net = .error e → matchEntry st key = some c →
          cacheFirstStrategy st key config net now = (.ok c, st))
    ∧ (∀ e, net = .error e → matchEntry st key = none →
        cacheFirstStrategy st key config net now = (.error e, st)) := by
  refine ⟨?_, ?_, ?_, ?_⟩
  · intro c hc hfresh
    simp [cacheFirstStrategy, hc, hfresh]
  · intro hstale resp hnet hok
    subst hnet
    cases hm : matchEntry st key with
    | none => simp [cacheFirstStrategy, hm, cacheFirstNetwork, hok]
    | some c =>
      have hexp := hstale c hm
      simp [cacheFirstStrategy, hm, hexp, cacheFirstNetwork, hok]
  · intro hstale e c hnet hm
    subst hnet
    have hexp := hstale c hm
    simp [cacheFirstStrategy, hm, hexp, cacheFirstNetwork]
  · intro e hnet hm
    subst hnet
    simp [cacheFirstStrategy, hm, cacheFirstNetwork]

/-- C4 witness: a fresh hit is served from cache with a failing network,
and a miss with a failing network propagates the failure. -/
theorem c4_cache_first_witness :
    cacheFirstStrategy [("k", ⟨true, 1, none⟩)] "k" ⟨100, 2592000⟩
        (.error (.failure 7)) 50 = (.ok ⟨true, 1, none⟩, [("k", ⟨true, 1, none⟩)])
    ∧ cacheFirstStrategy [] "k" ⟨100, 2592000⟩ (.error (.failure 7)) 50
        = (.error (.failure 7), []) :=
  ⟨(c4_cache_first [("k", ⟨true, 1, none⟩)] "k" ⟨100, 2592000⟩
      (.error (.failure 7)) 50).1 ⟨true, 1, none⟩ (by decide) (by decide),
    (c4_cache_first [] "k" ⟨100, 2592000⟩ (.error (.failure 7)) 50).2.2.2
      (.failure 7) rfl (by decide)⟩

/-- C1: evaluation of the stale-while-revalidate strategy at the failing
input — no cached entry for the request while the network call rejects.
The `.catch` attached to the background promise swallows the rejection,
so the awaited result resolves to `undefined` (`.ok none`) instead of
propagating the network failure, contradicting the intended error
semantics (the strategy's outer rethrow is unreachable for fetch
failures). -/
theorem c1_swr_failure_swallowed :
    staleWhileRevalidateStrategy [] "page" ⟨20, 604800⟩ (.error (.failure 3)) 0
      = (.ok none, []) := by
  decide

/-- C2 counterexample: with a cached entry present and a successful
network response settling at 5000 ms — after the 3000 ms timeout — the
strategy returns the cached entry and leaves the cache exactly as it was:
the late response is never stamped into the table, so the claimed
best-effort late refresh does not happen. -/
theorem c2_late_response_counterexample :
    networkFirstStrategy [("k", ⟨true, 1, some 0⟩)] "k" ⟨50, 86400⟩
        ⟨5000, .ok ⟨true, 2, none⟩⟩ 6000 3000
      = (.ok ⟨true, 1, some 0⟩, [("k", ⟨true, 1, some 0⟩)])
    ∧ addTimestamp ⟨true, 2, none⟩ 6000
        ∉ ([("k", ⟨true, 1, some 0⟩)] : CacheState).map Prod.snd := by
  refine ⟨by decide, by decide⟩

/-- C2 (amended): network-first with timeout (source default 3000 ms) —
a network response that settles before the timeout and is `ok` is
stamped, cached (with overflow eviction) and returned; if the network
settles first but fails, or the timeout elapses first, the cached entry
is returned when present and the failure is propagated when absent; and
in every timeout case the cache is left unchanged — the late network
response is discarded, not used to refresh the cache. -/
theorem c2_network_first (st : CacheState) (key : String)
    (config : CacheConfig) (net : NetBehavior) (now timeout : Nat) :
    (net.time < timeout → ∀ resp, net.result = .ok resp → resp.ok = true →
        networkFirstStrategy st key config net now timeout
          = (.ok resp, cacheWrite st config key resp now))
    ∧ (net.time < timeout → ∀ e c, net.result = .error e →
        matchEntry st key = some c →
          networkFirstStrategy st key config net now timeout = (.ok c, st))
    ∧ (net.time < timeout → ∀ e, net.result = .error e →
        matchEntry st key = none →
          networkFirstStrategy st key config net now timeout = (.error e, st))
    ∧ (timeout ≤ net.time → ∀ c, matchEntry st key = some c →
        networkFirstStrategy st key config net now timeout = (.ok c, st))
    ∧ (timeout ≤ net.time → matchEntry st key = none →
        networkFirstStrategy st key config net now timeout
          = (.error .timeout, st))
    ∧ (timeout ≤ net.time →
        (networkFirstStrategy st key config net now timeout).2 = st)
    ∧ networkFirstStrategy st key config net now
        = networkFirstStrategy st key config net now 3000 := by
  refine ⟨?_, ?_, ?_, ?_, ?_, ?_, rfl⟩
  · intro ht resp hr hok
    simp [networkFirstStrategy, ht, hr, hok]
  · intro ht e c hr hm
    simp [networkFirstStrategy, ht, hr, networkFirstFallback, hm]
  · intro ht e hr hm
    simp [networkFirstStrategy, ht, hr, networkFirstFallback, hm]
  · intro ht c hm
    have : ¬ net.time < timeout := by omega
    simp [networkFirstStrategy, this, networkFirstFallback, hm]
  · intro ht hm
    have : ¬ net.time < timeout := by omega
    simp [networkFirstStrategy, this, networkFirstFallback, hm]
  · intro ht
    have : ¬ net.time < timeout := by omega
    unfold networkFirstStrategy
    rw [if_neg this]
    unfold networkFirstFallback
    cases matchEntry st key <;> simp

/-- C2 witness: a fast successful response (50 ms < 100 ms timeout) is
cached and returned; a slow one (500 ms) falls back to the cached entry. -/
theorem c2_network_first_witness :
    networkFirstStrategy [] "api" ⟨50, 86400⟩ ⟨50, .ok ⟨true, 4, none⟩⟩ 60 100
        = (.ok ⟨true, 4, none⟩, [("api", ⟨true, 4, some 60⟩)])
    ∧ networkFirstStrategy [("api", ⟨true, 9, some 0⟩)] "api" ⟨50, 86400⟩
        ⟨500, .ok ⟨true, 4, none⟩⟩ 100 100
        = (.ok ⟨true, 9, some 0⟩, [("api", ⟨true, 9, some 0⟩)]) := by
  constructor
  · have h := (c2_network_first [] "api" ⟨50, 86400⟩ ⟨50, .ok ⟨true, 4, none⟩⟩
      60 100).1 (by decide) ⟨true, 4, none⟩ rfl (by decide)
    rw [h]
    decide
  · exact (c2_network_first [("api", ⟨true, 9, some 0⟩)] "api" ⟨50, 86400⟩
      ⟨500, .ok ⟨true, 4, none⟩⟩ 100 100).2.2.2.1 (by decide)
      ⟨true, 9, some 0⟩ (by decide)

/-- C7: the bulk cleanup sweep keeps an entry of a configured table iff it
is not expired (deleting exactly the expired ones); caches with no
configuration are left untouched while configured ones are swept; and the
read paths of the strategies never physically delete a stale or expired
entry — with a failing network, cache-first and stale-while-revalidate
leave the table unchanged even when the entry they find is expired, and
network-first leaves the table unchanged whenever the fetch fails. -/
theorem c7_cleanup_deletes_exactly_expired (config : CacheConfig)
    (now : Nat) :
    (∀ (st : CacheState) (k : String) (r : Response),
        ((k, r) ∈ cleanupTable st config now ↔
          (k, r) ∈ st ∧ isExpired r config now = false))
    ∧ (∀ (caches : List (String × CacheState))
        (configs : String → Option CacheConfig), ∀ c ∈ caches,
          (configs c.1 = none → c ∈ cleanupCaches caches configs now)
          ∧ (∀ cfg, configs c.1 = some cfg →
              (c.1, cleanupTable c.2 cfg now) ∈ cleanupCaches caches configs now))
    ∧ (∀ (st : CacheState) (key : String) (c : Response) (e : NetworkError),
        matchEntry st key = some c → isExpired c config now = true →
          (cacheFirstStrategy st key config (.error e) now).2 = st
          ∧ (staleWhileRevalidateStrategy st key config (.error e) now).2 = st)
    ∧ (∀ (st : CacheState) (key : String) (t : Nat) (e : NetworkError),
        (networkFirstStrategy st key config ⟨t, .error e⟩ now).2 = st) := by
  refine ⟨?_, ?_, ?_, ?_⟩
  · intro st k r
    simp [cleanupTable, List.mem_filter]
  · intro caches configs c hc
    constructor
    · intro hnone
      have : (fun c : String × CacheState =>
          match configs c.1 with
          | some config => (c.1, cleanupTable c.2 config now)
          | none => c) c = c := by simp [hnone]
      exact this ▸ List.mem_map_of_mem _ hc
    · intro cfg hsome
      have : (fun c : String × CacheState =>
          match configs c.1 with
          | some config => (c.1, cleanupTable c.2 config now)
          | none => c) c = (c.1, cleanupTable c.2 cfg now) := by simp [hsome]
      exact this ▸ List.mem_map_of_mem _ hc
  · intro st key c e hm hexp
    constructor
    · simp [cacheFirstStrategy, hm, hexp, cacheFirstNetwork]
    · simp [staleWhileRevalidateStrategy, hm, hexp, swrNetworkPromise]
  · intro st key t e
    by_cases ht : t < 3000
    · unfold networkFirstStrategy
      rw [if_pos ht]
      unfold networkFirstFallback
      cases matchEntry st key <;> simp
    · unfold networkFirstStrategy
      rw [if_neg ht]
      unfold networkFirstFallback
      cases matchEntry st key <;> simp

/-- C7 witness: cleanup of a two-entry pages table at `now = 700000000`
deletes exactly the expired entry. -/
theorem c7_cleanup_deletes_exactly_expired_witness :
    ("old", (⟨true, 1, some 0⟩ : Response)) ∉
        cleanupTable [("old", ⟨true, 1, some 0⟩), ("new", ⟨true, 2, some 699999999⟩)]
          ⟨20, 604800⟩ 700000000
    ∧ ("new", (⟨true, 2, some 699999999⟩ : Response)) ∈
        cleanupTable [("old", ⟨true, 1, some 0⟩), ("new", ⟨true, 2, some 699999999⟩)]
          ⟨20, 604800⟩ 700000000 := by
  constructor
  · intro hmem
    have h := ((c7_cleanup_deletes_exactly_expired ⟨20, 604800⟩ 700000000).1
      [("old", ⟨true, 1, some 0⟩), ("new", ⟨true, 2, some 699999999⟩)]
      "old" ⟨true, 1, some 0⟩).mp hmem
    exact absurd h.2 (by decide)
  · exact ((c7_cleanup_deletes_exactly_expired ⟨20, 604800⟩ 700000000).1
      [("old", ⟨true, 1, some 0⟩), ("new", ⟨true, 2, some 699999999⟩)]
      "new" ⟨true, 2, some 699999999⟩).mpr ⟨by decide, by decide⟩

/-- C10: a cached response carrying no `sw-cached-at` stamp — as the
resources precached by the install handler, which bypass `addTimestamp` —
is never considered expired by `isExpired`, for every table configuration
and every current time; consequently cache-first serves it with no network
involvement and no state change, and stale-while-revalidate returns it
immediately as the fresh value. -/
theorem c10_unstamped_never_expires (config : CacheConfig) (now : Nat)
    (resp : Response) (h : resp.cachedAt = none) :
    isExpired resp config now = false
    ∧ (∀ (st : CacheState) (key : String), matchEntry st key = some resp →
        ∀ net, cacheFirstStrategy st key config net now = (.ok resp, st))
    ∧ (∀ (st : CacheState) (key : String), matchEntry st key = some resp →
        ∀ net, (staleWhileRevalidateStrategy st key config net now).1
          = .ok (some resp)) := by
  have hfresh : isExpired resp config now = false := by
    unfold isExpired
    rw [h]
  refine ⟨hfresh, ?_, ?_⟩
  · intro st key hm net
    simp [cacheFirstStrategy, hm, hfresh]
  · intro st key hm net
    simp [staleWhileRevalidateStrategy, hm, hfresh]

/-- C10 witness: an unstamped precached entry in the 30-day static table
is fresh a year (in ms) later and served from cache against a failing
network. -/
theorem c10_unstamped_never_expires_witness :
    isExpired ⟨true, 5, none⟩ ⟨100, 2592000⟩ 31536000000 = false
    ∧ cacheFirstStrategy [("/", ⟨true, 5, none⟩)] "/" ⟨100, 2592000⟩
        (.error (.failure 1)) 31536000000
        = (.ok ⟨true, 5, none⟩, [("/", ⟨true, 5, none⟩)]) :=
  ⟨(c10_unstamped_never_expires ⟨100, 2592000⟩ 31536000000 ⟨true, 5, none⟩
      rfl).1,
    (c10_unstamped_never_expires ⟨100, 2592000⟩ 31536000000 ⟨true, 5, none⟩
      rfl).2.1 [("/", ⟨true, 5, none⟩)] "/" (by decide) (.error (.failure 1))⟩

/-- C6: across enqueueing and any drain run, every queue item keeps
`retryCount ≤ maxRetries`; on a failed attempt whose increment reaches or
would pass the bound the item's status becomes `failed`; and a failed item
is never silently deleted — it survives every drain step until explicit
removal.  The scenario closes the theorem: one item with `maxRetries = 3`
and three consecutive failures ends `failed` with `retryCount = 3`, still
in the queue. -/
theorem c6_queue_retry_bound (q : List QueueItem) (h : RetryBound q)
    (outcomes : List Bool) :
    RetryBound (drainRun q outcomes)
    ∧ (∀ id m, RetryBound (enqueue q id m))
    ∧ (∀ it : QueueItem, it.retryCount ≤ it.maxRetries →
        it.maxRetries ≤ it.retryCount + 1 →
        (processFailure it).status = .failed
          ∧ (processFailure it).retryCount ≤ (processFailure it).maxRetries)
    ∧ (∀ it ∈ q, it.status = .failed → it ∈ drainRun q outcomes)
    ∧ drainRun (enqueue [] 1 3) [false, false, false]
        = [⟨1, 3, 3, .failed⟩] := by
  refine ⟨retryBound_drainRun q h outcomes, ?_, ?_, ?_, by decide⟩
  · intro id m it hit
    rcases List.mem_append.mp hit with hmem | hmem
    · exact h it hmem
    · simp at hmem
      rw [hmem]
      exact Nat.zero_le m
  · intro it h1 h2
    refine ⟨?_, retryBound_processFailure it h1⟩
    unfold processFailure
    by_cases hle : it.retryCount + 1 ≤ it.maxRetries
    · have heq : it.retryCount + 1 = it.maxRetries := by omega
      rw [if_pos hle]
      simp [heq]
    · rw [if_neg hle]
  · intro it hm hf
    exact failed_mem_drainRun q outcomes it hm hf

/-- C6 witness: the retry bound and failed-item persistence at a concrete
queue holding one exhausted (`failed`) item and one fresh one. -/
theorem c6_queue_retry_bound_witness :
    RetryBound (drainRun [⟨1, 3, 3, .failed⟩, ⟨2, 0, 3, .pending⟩]
        [false, false])
    ∧ (⟨1, 3, 3, .failed⟩ : QueueItem)
        ∈ drainRun [⟨1, 3, 3, .failed⟩, ⟨2, 0, 3, .pending⟩] [false, false] :=
  ⟨(c6_queue_retry_bound [⟨1, 3, 3, .failed⟩, ⟨2, 0, 3, .pending⟩]
      (by decide) [false, false]).1,
    (c6_queue_retry_bound [⟨1, 3, 3, .failed⟩, ⟨2, 0, 3, .pending⟩]
      (by decide) [false, false]).2.2.2.1 ⟨1, 3, 3, .failed⟩ (by decide) rfl⟩

/-- C9: `getConversation` on an id with no stored conversation returns the
explicit absent result (`null`, here `.ok none`); it never surfaces an
error — for every store and id it resolves with an `.ok` value. -/
theorem c9_get_conversation_missing
    (store : List (String × CachedConversation)) (id : String)
    (h : ∀ e ∈ store, e.1 ≠ id) :
    getConversation store id = .ok none
    ∧ ∀ (s : List (String × CachedConversation)) (i : String),
        ∃ v, getConversation s i = .ok v := by
  constructor
  · unfold getConversation
    have : store.find? (fun e => e.1 = id) = none := by
      rw [List.find?_eq_none]
      intro e he
      simpa using h e he
    rw [this]
    rfl
  · intro s i
    exact ⟨_, rfl⟩

/-- C9 witness: a one-conversation store queried for a missing id. -/
theorem c9_get_conversation_missing_witness :
    getConversation [("conv1", ⟨"conv1", 42⟩)] "missing" = .ok none :=
  (c9_get_conversation_missing [("conv1", ⟨"conv1", 42⟩)] "missing"
    (by decide)).1

end OpenFiesta
